import Mathlib

/-!
Verification development for the `rust-interning` repository: a shallow
embedding, in Lean 4, of the interning/arena engine (`src/intern.rs`), the
canonical-set run-length codec and the cross-representation equivalence
protocol (`src/schema/optimized.rs`), together with the source schema
(`src/schema/source.rs`), and proofs of the specified properties.

Modelling conventions:
* `Interner<T, Storage>` stores values behind `Borrow`/`Into` conversions;
  all concrete representations (owned, borrowed, boxed) of the same content
  compare equal, so the embedding erases the `Storage` parameter and stores
  the content type directly.
* The `DashTable` dedup index keys entries by the value's content hash and
  resolves collisions by probing with content equality against the backing
  vector.  Since equal values always hash equal and unequal colliding values
  are rejected by the equality probe, the index is modelled as the list of
  registered slot ids, probed by content equality against the backing list;
  hashes themselves are erased.
* Rust panics (out-of-range indexing, `Data::from` on an invalid record,
  datetime parse failures) are modelled with `Option`: `none` is a panic.
* Machine integers: interner ids are `Nat` (the code asserts they fit `u32`);
  in the run-length codec, where `u32`/`i32` wrapping is observable, the
  casts are modelled explicitly with `% 2^32` and signed reinterpretation.
-/

namespace RustInterning

/-- The store of canonical values for one type (`Interner` in `src/intern.rs`):
`vec` is the append-only backing sequence (`AppendVec<Storage>`), `map` is the
dedup index (`DashTable<u32>`, modelled as the list of registered ids, see the
header comment), and `references` is the intern-request counter. -/
structure Interner (α : Type) where
  vec : List α
  map : List Nat
  references : Nat
deriving DecidableEq

/-- `Interner::default()`: empty store. -/
def Interner.empty (α : Type) : Interner α := ⟨[], [], 0⟩

/-- Probe of the dedup index: find a registered id whose backing value equals
the candidate (the closure `|&i| self.vec[i as usize].borrow() == value.borrow()`
given to `DashTable::entry`). -/
def Interner.probe [DecidableEq α] (s : Interner α) (v : α) : Option Nat :=
  s.map.find? (fun i => s.vec.get? i == some v)

/-- `Interner::intern`: bump the request counter; return the id of an existing
content-equal entry, or append the value and register its fresh id. -/
def Interner.intern [DecidableEq α] (s : Interner α) (v : α) : Interner α × Nat :=
  let s' : Interner α := { s with references := s.references + 1 }
  match s'.probe v with
  | some i => (s', i)
  | none =>
    let id := s'.vec.length
    ({ s' with vec := s'.vec ++ [v], map := s'.map ++ [id] }, id)

/-- `Interner::push`: unconditionally append a value and register its id in
the index, without the dedup probe (deserialization path). -/
def Interner.push (s : Interner α) (v : α) : Interner α × Nat :=
  let id := s.vec.length
  ({ s with vec := s.vec ++ [v], map := s.map ++ [id] }, id)

/-- `Interner::lookup` / `lookup_ref`: indexed access into the backing
sequence; `none` models the out-of-range panic. -/
def Interner.lookup (s : Interner α) (id : Nat) : Option α :=
  s.vec.get? id

/-- Replay a sequence of `intern` calls, collecting the returned ids. -/
def Interner.internAll [DecidableEq α] (s : Interner α) : List α → Interner α × List Nat
  | [] => (s, [])
  | v :: vs =>
    let r := s.intern v
    let r2 := r.1.internAll vs
    (r2.1, r.2 :: r2.2)

/-- Replay a sequence of `push` calls, collecting the returned ids (the
deserialization loop of `InternerVisitor::visit_seq`). -/
def Interner.pushAll (s : Interner α) : List α → Interner α × List Nat
  | [] => (s, [])
  | v :: vs =>
    let r := s.push v
    let r2 := r.1.pushAll vs
    (r2.1, r.2 :: r2.2)

/-- `Interner`'s `Serialize` impl: the ordered sequence of canonical values
only (no index, no counter). -/
def Interner.serialize (s : Interner α) : List α := s.vec

/-- `Interner`'s `Deserialize` impl (`InternerVisitor::visit_seq`): start from
a fresh store and `push` each value in order. -/
def Interner.deserialize (α : Type) (l : List α) : Interner α :=
  ((Interner.empty α).pushAll l).1

/-- `Interner`'s `PartialEq` impl compares only the backing value sequences
(`self.vec.iter().eq(other.vec.iter())`). -/
def Interner.rustEq (s t : Interner α) : Prop := s.vec = t.vec

/-- Well-formedness of the dedup index required for the Rust code not to
panic while probing: every registered id is in range of the backing vector. -/
def Interner.WF (s : Interner α) : Prop := ∀ i ∈ s.map, i < s.vec.length

/-- The store invariant of the spec: the dedup index registers exactly the
ids `0..len`, and no two distinct ids hold content-equal values. -/
def Interner.Inv (s : Interner α) : Prop :=
  s.map = List.range s.vec.length ∧ s.vec.Nodup

/-- Values of a list in first-occurrence order, starting from an accumulator
of already-seen values (specification-side helper for the dedup theorems). -/
def absorb [DecidableEq α] (acc : List α) (vs : List α) : List α :=
  vs.foldl (fun acc v => if v ∈ acc then acc else acc ++ [v]) acc

/-- The distinct values of `vs` in order of first occurrence. -/
def firstOccs [DecidableEq α] (vs : List α) : List α := absorb [] vs

theorem absorb_nil [DecidableEq α] (acc : List α) : absorb acc [] = acc := rfl

theorem absorb_cons [DecidableEq α] (acc : List α) (v : α) (vs : List α) :
    absorb acc (v :: vs) = absorb (if v ∈ acc then acc else acc ++ [v]) vs := rfl

/-- `absorb` only ever appends to the accumulator. -/
theorem absorb_append [DecidableEq α] (acc : List α) (vs : List α) :
    ∃ t, absorb acc vs = acc ++ t := by
  induction vs generalizing acc with
  | nil => exact ⟨[], by simp [absorb_nil]⟩
  | cons v vs ih =>
    rw [absorb_cons]
    by_cases h : v ∈ acc
    · simpa [h] using ih acc
    · obtain ⟨t, ht⟩ := ih (acc ++ [v])
      exact ⟨v :: t, by simp [h, ht]⟩

/-- Membership in `absorb`: an element is in the result iff it was in the
accumulator or in the list. -/
theorem mem_absorb [DecidableEq α] (acc : List α) (vs : List α) (x : α) :
    x ∈ absorb acc vs ↔ x ∈ acc ∨ x ∈ vs := by
  induction vs generalizing acc with
  | nil => simp [absorb_nil]
  | cons v vs ih =>
    rw [absorb_cons]
    by_cases h : v ∈ acc
    · rw [if_pos h, ih]
      simp only [List.mem_cons]
      constructor
      · tauto
      · rintro (hx | rfl | hx) <;> tauto
    · rw [if_neg h, ih]
      simp only [List.mem_append, List.mem_cons, List.mem_singleton]
      tauto

/-- `absorb` preserves `Nodup` of the accumulator. -/
theorem absorb_nodup [DecidableEq α] (acc : List α) (vs : List α)
    (h : acc.Nodup) : (absorb acc vs).Nodup := by
  induction vs generalizing acc with
  | nil => exact h
  | cons v vs ih =>
    rw [absorb_cons]
    by_cases hv : v ∈ acc
    · rw [if_pos hv]; exact ih acc h
    · rw [if_neg hv]
      exact ih _ (by simp [List.nodup_append, h, hv])

theorem mem_firstOccs [DecidableEq α] (vs : List α) (x : α) :
    x ∈ firstOccs vs ↔ x ∈ vs := by
  simp [firstOccs, mem_absorb]

theorem firstOccs_nodup [DecidableEq α] (vs : List α) : (firstOccs vs).Nodup :=
  absorb_nodup [] vs List.nodup_nil

/-- Probing an index that registers exactly `0..len` finds the first position
holding the candidate value. -/
theorem find_range_eq_indexOf [DecidableEq α] (l : List α) (v : α) :
    (List.range l.length).find? (fun i => l.get? i == some v) =
      if v ∈ l then some (l.indexOf v) else none := by
  induction l with
  | nil => simp
  | cons a l ih =>
    rw [List.length_cons, List.range_succ_eq_map]
    by_cases hv : v = a
    · subst hv
      simp [List.find?_cons, List.indexOf_cons_self]
    · have h0 : ((a :: l).get? 0 == some v) = false := by
        simp [List.get?, hv, Ne.symm hv]
      rw [List.find?_cons_of_neg _ (by simpa using h0), List.find?_map]
      have hcomp :
          ((fun i => (a :: l).get? i == some v) ∘ Nat.succ) =
            (fun i => l.get? i == some v) := by
        funext i
        simp [List.get?]
      rw [hcomp, ih]
      by_cases hm : v ∈ l
      · have hm' : v ∈ a :: l := List.mem_cons_of_mem _ hm
        rw [if_pos hm, if_pos hm']
        simp [List.indexOf_cons, hv, Ne.symm hv]
      · have hm' : v ∉ a :: l := by
          simp [hv, hm]
        rw [if_neg hm, if_neg hm']
        rfl

/-- On a state satisfying the store invariant, the probe resolves a stored
value to the id of its (unique) occurrence, and misses on fresh values. -/
theorem probe_inv [DecidableEq α] (s : Interner α) (h : s.Inv) (v : α) :
    s.probe v = if v ∈ s.vec then some (s.vec.indexOf v) else none := by
  rw [Interner.probe, h.1, find_range_eq_indexOf]

/-- `intern` on an invariant state: a stored value resolves to its existing
id and leaves the backing sequence unchanged; a fresh value is appended. -/
theorem intern_inv [DecidableEq α] (s : Interner α) (h : s.Inv) (v : α) :
    s.intern v =
      if v ∈ s.vec then
        (⟨s.vec, s.map, s.references + 1⟩, s.vec.indexOf v)
      else
        (⟨s.vec ++ [v], s.map ++ [s.vec.length], s.references + 1⟩, s.vec.length) := by
  have h' : (Interner.mk s.vec s.map (s.references + 1) : Interner α).Inv := h
  rw [Interner.intern]
  by_cases hm : v ∈ s.vec
  · simp only [probe_inv _ h', hm, if_pos]
  · simp only [probe_inv _ h', hm, if_neg, if_false]

/-- `intern` preserves the store invariant. -/
theorem intern_preserves_inv [DecidableEq α] (s : Interner α) (h : s.Inv) (v : α) :
    (s.intern v).1.Inv := by
  rw [intern_inv s h v]
  by_cases hm : v ∈ s.vec
  · simpa [hm] using h
  · simp only [hm, if_neg, if_false]
    refine ⟨?_, ?_⟩
    · simp [h.1, List.range_succ]
    · simp [List.nodup_append, h.2, hm]

/-- The ids produced by a sequence of `intern` calls, relative to the list of
values already stored (specification-side helper). -/
def idsOf [DecidableEq α] (acc : List α) : List α → List Nat
  | [] => []
  | v :: vs =>
    if v ∈ acc then acc.indexOf v :: idsOf acc vs
    else acc.length :: idsOf (acc ++ [v]) vs

/-- Characterization of `internAll` from any invariant state: the backing
sequence absorbs the values in first-occurrence order, the invariant is
preserved, and the returned ids are `idsOf` relative to the prior contents. -/
theorem internAll_spec [DecidableEq α] (vs : List α) (s : Interner α) (h : s.Inv) :
    (s.internAll vs).1.vec = absorb s.vec vs ∧ (s.internAll vs).1.Inv ∧
      (s.internAll vs).2 = idsOf s.vec vs := by
  induction vs generalizing s with
  | nil => exact ⟨by simp [Interner.internAll, absorb_nil], h, rfl⟩
  | cons v vs ih =>
    rw [Interner.internAll]
    have hstep := intern_inv s h v
    by_cases hm : v ∈ s.vec
    · rw [hstep]
      simp only [hm, if_pos]
      obtain ⟨h1, h2, h3⟩ := ih (⟨s.vec, s.map, s.references + 1⟩ : Interner α) h
      refine ⟨?_, h2, ?_⟩
      · rw [h1, absorb_cons, if_pos hm]
      · simp only [idsOf, hm, if_pos]
        rw [h3]
    · rw [hstep]
      simp only [hm, if_neg, if_false]
      have hinv' : (Interner.mk (s.vec ++ [v]) (s.map ++ [s.vec.length])
          (s.references + 1) : Interner α).Inv := by
        have := intern_preserves_inv s h v
        rw [hstep] at this
        simpa [hm] using this
      obtain ⟨h1, h2, h3⟩ := ih _ hinv'
      refine ⟨?_, h2, ?_⟩
      · rw [h1, absorb_cons, if_neg hm]
      · simp only [idsOf, hm, if_neg, if_false]
        rw [h3]

/-- `idsOf` indexes each value into the fully-absorbed list of distinct
values: the id handed out for `v` is the position of `v`'s first occurrence. -/
theorem idsOf_eq_map_indexOf [DecidableEq α] (vs : List α) (acc : List α)
    (hn : acc.Nodup) :
    idsOf acc vs = vs.map (fun v => (absorb acc vs).indexOf v) := by
  induction vs generalizing acc with
  | nil => simp [idsOf]
  | cons v vs ih =>
    rw [absorb_cons]
    by_cases hm : v ∈ acc
    · rw [idsOf, if_pos hm, if_pos hm, List.map_cons, ih acc hn]
      congr 1
      obtain ⟨t, ht⟩ := absorb_append acc vs
      rw [ht, List.indexOf_append_of_mem hm]
    · rw [idsOf, if_neg hm, if_neg hm, List.map_cons, ih _ (by simp [List.nodup_append, hn, hm])]
      congr 1
      obtain ⟨t, ht⟩ := absorb_append (acc ++ [v]) vs
      rw [ht]
      have hv : v ∈ acc ++ [v] := by simp
      rw [List.indexOf_append_of_mem hv, List.indexOf_append_of_not_mem hm]
      simp

theorem range_map_add_succ (c n : Nat) :
    (List.range (n + 1)).map (fun k => c + k) =
      c :: (List.range n).map (fun k => (c + 1) + k) := by
  rw [List.range_succ_eq_map, List.map_cons, List.map_map]
  refine congrArg₂ _ (by simp) ?_
  congr 1
  funext k
  simp [Function.comp]
  omega

/-- Characterization of the deserialization replay: `pushAll` appends the
values in order, registers consecutive ids continuing after the existing
contents, returns those ids, and never touches the request counter. -/
theorem pushAll_spec (l : List α) (s : Interner α) :
    (s.pushAll l).1.vec = s.vec ++ l ∧
      (s.pushAll l).1.map = s.map ++ (List.range l.length).map (s.vec.length + ·) ∧
      (s.pushAll l).2 = (List.range l.length).map (s.vec.length + ·) ∧
      (s.pushAll l).1.references = s.references := by
  induction l generalizing s with
  | nil => simp [Interner.pushAll]
  | cons v l ih =>
    rw [Interner.pushAll, Interner.push]
    obtain ⟨h1, h2, h3, h4⟩ :=
      ih (⟨s.vec ++ [v], s.map ++ [s.vec.length], s.references⟩ : Interner α)
    refine ⟨by simp [h1], ?_, ?_, by simp [h4]⟩
    · simp only [h2, List.length_cons, List.length_append, List.length_singleton]
      rw [range_map_add_succ, List.append_assoc]
      rfl
    · simp only [h3, List.length_cons, List.length_append, List.length_singleton]
      rw [range_map_add_succ]
      rfl

/-! ## The run-length id codec of `InternedSet` (`src/schema/optimized.rs`)

The encoder (`InternedSet`'s `Serialize` impl) walks the ascending id array
keeping `prev: Option<u32>` and `streak: i32`; the decoder
(`InternedSetVisitor::visit_seq`) folds the signed tokens back into ids.
The `u32` subtraction `id - prev`, the cast `diff as i32`, the `i32` negation
`-streak` / `-x` and the `u32` additions are modelled with explicit wrapping
(release-build semantics; a debug build would panic exactly where the wrap
occurs, which equally falsifies a round-trip). -/

/-- Reinterpret a `u32` value as an `i32` (the cast `diff as i32`). -/
def toSigned32 (d : Nat) : Int :=
  if d < 2 ^ 31 then (d : Int) else (d : Int) - 2 ^ 32

/-- Wrapping `i32` negation: `i32::MIN` is its own negation. -/
def neg32 (x : Int) : Int := if x = -(2 ^ 31) then -(2 ^ 31) else -x

/-- The streak token `-streak` pushed by the encoder (`streak` counts in an
`i32`, modelled as a wrapped `Nat` counter). -/
def negToken (streak : Nat) : Int := neg32 (toSigned32 (streak % 2 ^ 32))

/-- The wrapping `u32` difference `id - prev.unwrap_or(0)` computed by the
encoder for each id. -/
def rleDiff (prev : Option Nat) (id : Nat) : Nat :=
  ((id + 2 ^ 32) - prev.getD 0) % 2 ^ 32

/-- Encoder loop of `InternedSet`'s `Serialize` impl, with state `prev` and
`streak`. -/
def rleEncodeGo : Option Nat → Nat → List Nat → List Int
  | _, streak, [] => if streak ≠ 0 then [negToken streak] else []
  | prev, streak, id :: rest =>
    if prev.isSome && rleDiff prev id == 1 then rleEncodeGo (some id) (streak + 1) rest
    else
      (if streak ≠ 0 then [negToken streak] else []) ++
        (toSigned32 (rleDiff prev id) :: rleEncodeGo (some id) 0 rest)

/-- `InternedSet::serialize`: run-length encode the ascending id sequence. -/
def rleEncode (ids : List Nat) : List Int := rleEncodeGo none 0 ids

/-- The decoder's inner run loop (`for _ in 0..-x { prev += 1; push(prev) }`):
emit `n` consecutive ids after `prev` and return the final `prev`. -/
def decRun (prev : Nat) : Nat → List Nat × Nat
  | 0 => ([], prev)
  | n + 1 =>
    ((prev + 1) % 2 ^ 32 :: (decRun ((prev + 1) % 2 ^ 32) n).1,
      (decRun ((prev + 1) % 2 ^ 32) n).2)

/-- Decoder loop of `InternedSetVisitor::visit_seq`. -/
def rleDecodeGo (prev : Nat) : List Int → List Nat
  | [] => []
  | x :: rest =>
    if x < 0 then
      (decRun prev (neg32 x).toNat).1 ++
        rleDecodeGo (decRun prev (neg32 x).toNat).2 rest
    else
      (prev + x.toNat) % 2 ^ 32 :: rleDecodeGo ((prev + x.toNat) % 2 ^ 32) rest

/-- Decode a run-length token sequence back into ids. -/
def rleDecode (tokens : List Int) : List Nat := rleDecodeGo 0 tokens

/-- The pending ids owed by a non-zero encoder streak: `p - s + 1, …, p`. -/
def pend (p s : Nat) : List Nat := (List.range s).map (fun k => p - s + 1 + k)

theorem decRun_small (prev n : Nat) (h : prev + n < 2 ^ 32) :
    decRun prev n = ((List.range n).map (fun k => prev + 1 + k), prev + n) := by
  induction n generalizing prev with
  | zero => simp [decRun]
  | succ n ih =>
    rw [decRun]
    have hp : (prev + 1) % 2 ^ 32 = prev + 1 := Nat.mod_eq_of_lt (by omega)
    simp only [hp, ih (prev + 1) (by omega), Prod.mk.injEq]
    exact ⟨(range_map_add_succ (prev + 1) n).symm, by omega⟩

theorem pend_succ (p s : Nat) (hs : s ≤ p) :
    pend (p + 1) (s + 1) = pend p s ++ [p + 1] := by
  rw [pend, pend, List.range_succ, List.map_append, List.map_singleton]
  have h1 : p + 1 - (s + 1) = p - s := by omega
  have h2 : p - s + 1 + s = p + 1 := by omega
  rw [h1, h2]

theorem pend_zero (p : Nat) : pend p 0 = [] := by simp [pend]

theorem rleDiff_some (p id : Nat) (hp : p ≤ id) (hid : id < 2 ^ 32) :
    rleDiff (some p) id = id - p := by
  rw [rleDiff, Option.getD_some]
  have h1 : (id + 2 ^ 32) - p = (id - p) + 2 ^ 32 := by omega
  rw [h1, Nat.add_mod_right, Nat.mod_eq_of_lt (by omega)]

theorem rleDiff_none (id : Nat) (hid : id < 2 ^ 32) : rleDiff none id = id := by
  rw [rleDiff, Option.getD_none, Nat.sub_zero, Nat.add_mod_right, Nat.mod_eq_of_lt hid]

theorem toSigned32_small (d : Nat) (h : d < 2 ^ 31) : toSigned32 d = (d : Int) := by
  rw [toSigned32, if_pos (by exact_mod_cast h)]

theorem negToken_small (s : Nat) (h : s < 2 ^ 31) : negToken s = -(s : Int) := by
  rw [negToken, Nat.mod_eq_of_lt (by omega), toSigned32_small s h, neg32, if_neg (by omega)]

theorem neg32_neg_natCast (s : Nat) (h : s < 2 ^ 31) : neg32 (-(s : Int)) = (s : Int) := by
  rw [neg32, if_neg (by omega)]
  simp

/-- Decoding a streak token `-s` emits the `s` pending consecutive ids. -/
theorem decode_streak_token (p s : Nat) (rest : List Int) (hp : p < 2 ^ 32)
    (hs : s ≤ p) (hs0 : s ≠ 0) (hps : s < 2 ^ 31) :
    rleDecodeGo (p - s) (-(s : Int) :: rest) = pend p s ++ rleDecodeGo p rest := by
  rw [rleDecodeGo, if_pos (by omega : -(s : Int) < 0), neg32_neg_natCast s hps,
    Int.toNat_natCast, decRun_small (p - s) s (by omega)]
  have hfix : p - s + s = p := by omega
  rw [hfix]
  rfl

/-- Decoding a non-negative token `d` emits the single id `prev + d`. -/
theorem decode_pos_token (p d : Nat) (rest : List Int) (hpd : p + d < 2 ^ 32) :
    rleDecodeGo p ((d : Int) :: rest) = (p + d) :: rleDecodeGo (p + d) rest := by
  rw [rleDecodeGo, if_neg (by omega : ¬((d : Int) < 0)), Int.toNat_natCast,
    Nat.mod_eq_of_lt hpd]

/-- Joint round-trip lemma for the codec loops: decoding the encoder's output
from state `(some p, s)` at decoder position `p - s` yields the pending
streak ids followed by the remaining input ids, for strictly ascending ids
below `2^31`. -/
theorem rle_roundtrip_aux (ids : List Nat) (p s : Nat)
    (hp : p < 2 ^ 31) (hs : s ≤ p)
    (hlt : ∀ x ∈ ids, p < x) (hub : ∀ x ∈ ids, x < 2 ^ 31)
    (hpair : List.Pairwise (· < ·) ids) :
    rleDecodeGo (p - s) (rleEncodeGo (some p) s ids) = pend p s ++ ids := by
  induction ids generalizing p s with
  | nil =>
    rw [rleEncodeGo]
    by_cases hs0 : s = 0
    · subst hs0
      simp [rleDecodeGo, pend_zero]
    · rw [if_pos hs0, negToken_small s (by omega),
        decode_streak_token p s [] (by omega) hs hs0 (by omega)]
      rfl
  | cons id rest ih =>
    have hpid : p < id := hlt id (by simp)
    have hid : id < 2 ^ 31 := hub id (by simp)
    have hd : rleDiff (some p) id = id - p := rleDiff_some p id (by omega) (by omega)
    have hrest_lt : ∀ x ∈ rest, id < x := fun x hx =>
      (List.pairwise_cons.mp hpair).1 x hx
    have hrest_ub : ∀ x ∈ rest, x < 2 ^ 31 := fun x hx =>
      hub x (List.mem_cons_of_mem _ hx)
    have hrest_pair : List.Pairwise (· < ·) rest := (List.pairwise_cons.mp hpair).2
    rw [rleEncodeGo, hd]
    by_cases hone : id - p = 1
    · have hid1 : id = p + 1 := by omega
      subst hid1
      rw [if_pos (by simp [hone])]
      have := ih (p + 1) (s + 1) (by omega) (by omega) hrest_lt hrest_ub hrest_pair
      have hsub : p + 1 - (s + 1) = p - s := by omega
      rw [hsub] at this
      rw [this, pend_succ p s hs, List.append_assoc]
      rfl
    · rw [if_neg (by simp [hone])]
      have hts : toSigned32 (id - p) = ((id - p : Nat) : Int) :=
        toSigned32_small _ (by omega)
      have htail : rleDecodeGo p (((id - p : Nat) : Int) ::
          rleEncodeGo (some id) 0 rest) = id :: rest := by
        rw [decode_pos_token p (id - p) _ (by omega)]
        have hfix : p + (id - p) = id := by omega
        rw [hfix]
        have := ih id 0 hid (by omega) hrest_lt hrest_ub hrest_pair
        rw [Nat.sub_zero] at this
        rw [this, pend_zero, List.nil_append]
      by_cases hs0 : s = 0
      · subst hs0
        rw [if_neg (by simp), List.nil_append, hts, Nat.sub_zero, htail,
          pend_zero, List.nil_append]
      · rw [if_pos hs0, hts, negToken_small s (by omega), List.singleton_append,
          decode_streak_token p s _ (by omega) hs hs0 (by omega), htail]

/-- Round-trip of the run-length codec for strictly ascending id sequences
whose entries fit in 31 bits (so that no token wraps). -/
theorem rle_roundtrip (ids : List Nat) (hpair : List.Pairwise (· < ·) ids)
    (hub : ∀ x ∈ ids, x < 2 ^ 31) :
    rleDecode (rleEncode ids) = ids := by
  cases ids with
  | nil => rfl
  | cons id rest =>
    have hid : id < 2 ^ 31 := hub id (by simp)
    rw [rleEncode, rleEncodeGo, rleDiff_none id (by omega)]
    rw [if_neg (by simp)]
    rw [if_neg (by simp)]
    rw [List.nil_append, toSigned32_small id hid, rleDecode]
    rw [decode_pos_token 0 id _ (by omega), Nat.zero_add]
    have hrest_lt : ∀ x ∈ rest, id < x := fun x hx =>
      (List.pairwise_cons.mp hpair).1 x hx
    have hrest_ub : ∀ x ∈ rest, x < 2 ^ 31 := fun x hx =>
      hub x (List.mem_cons_of_mem _ hx)
    have := rle_roundtrip_aux rest id 0 hid (by omega) hrest_lt hrest_ub
      (List.pairwise_cons.mp hpair).2
    rw [Nat.sub_zero] at this
    rw [this, pend_zero, List.nil_append]

/-! ## Set equivalence (`option_eq_by` / `set_eq_by` in `src/schema/optimized.rs`) -/

/-- `option_eq_by`: compare two `Option`s under a predicate; mismatched
presence is unequal. -/
def option_eq_by (lhs : Option α) (rhs : Option β) (pred : α → β → Bool) : Bool :=
  match lhs, rhs with
  | none, none => true
  | none, some _ => false
  | some _, none => false
  | some x, some y => pred x y

/-- One pass of the inner loop of `set_eq_by`: scan the raw side in order,
skip already-used elements, mark the first not-yet-used element satisfying
the predicate; `none` if no element matches. -/
def markFirst (pred : β → Bool) : List (Bool × β) → Option (List (Bool × β))
  | [] => none
  | (u, y) :: rest =>
    if !u && pred y then some ((true, y) :: rest)
    else (markFirst pred rest).map (fun r => (u, y) :: r)

/-- The labelled outer loop of `set_eq_by`: greedily match each canonical
element against the raw side. -/
def set_eq_by_go (pred : α → β → Bool) : List α → List (Bool × β) → Bool
  | [], _ => true
  | x :: xs, used =>
    match markFirst (pred x) used with
    | some used2 => set_eq_by_go pred xs used2
    | none => false

/-- `set_eq_by` (free function in `src/schema/optimized.rs`): reject on
length mismatch, then run the greedy bipartite match with a `used` flag per
raw element. -/
def set_eq_by (lhs : List α) (rhs : List β) (pred : α → β → Bool) : Bool :=
  if lhs.length ≠ rhs.length then false
  else set_eq_by_go pred lhs (rhs.map (fun y => (false, y)))

/-! ## Calendar and timezone model

`TimestampSecondsParis` and `TimestampMillis` in `src/schema/optimized.rs`
convert between datetime strings and epoch timestamps through the external
`chrono`/`chrono-tz` crates.  The conversions are modelled executably here:
the proleptic-Gregorian day count (Howard Hinnant's civil-calendar
algorithms, which `chrono` implements), fixed-width datetime parsing and
formatting for the two formats the code uses (`%Y%m%dT%H%M%S` and RFC 3339
with millisecond precision), and the Europe/Paris timezone with the modern
EU daylight-saving rule (last Sunday of March 01:00 UTC to last Sunday of
October 01:00 UTC, CET +1h / CEST +2h — the rule in force since 1996, which
covers every datetime these theorems evaluate).  Years are modelled as the
four-digit range the data uses; parse failures model `chrono` errors, which
the Rust code turns into panics. -/

/-- Days since 1970-01-01 of a civil date (proleptic Gregorian). -/
def daysFromCivil (y : Int) (m d : Nat) : Int :=
  let yAdj : Int := if m ≤ 2 then y - 1 else y
  let era : Int := Int.fdiv yAdj 400
  let yoe : Int := yAdj - era * 400
  let mp : Nat := (m + 9) % 12
  let doy : Nat := (153 * mp + 2) / 5 + d - 1
  let doe : Int := yoe * 365 + Int.fdiv yoe 4 - Int.fdiv yoe 100 + doy
  era * 146097 + doe - 719468

/-- Civil date `(year, month, day)` of a day count since 1970-01-01. -/
def civilFromDays (z : Int) : Int × Nat × Nat :=
  let z2 := z + 719468
  let era := Int.fdiv z2 146097
  let doe : Nat := (z2 - era * 146097).toNat
  let yoe : Nat := (doe - doe / 1460 + doe / 36524 - doe / 146096) / 365
  let y : Int := (yoe : Int) + era * 400
  let doy : Nat := doe - (365 * yoe + yoe / 4 - yoe / 100)
  let mp : Nat := (5 * doy + 2) / 153
  let d : Nat := doy - (153 * mp + 2) / 5 + 1
  let m : Nat := if mp < 10 then mp + 3 else mp - 9
  (if m ≤ 2 then y + 1 else y, m, d)

def isLeap (y : Int) : Bool :=
  y % 4 == 0 && (y % 100 != 0 || y % 400 == 0)

def daysInMonth (y : Int) (m : Nat) : Nat :=
  if m = 2 then (if isLeap y then 29 else 28)
  else if m = 4 ∨ m = 6 ∨ m = 9 ∨ m = 11 then 30 else 31

/-- The instant (epoch seconds) of 01:00 UTC on the last Sunday of 31-day
month `m` of year `y` (the EU daylight-saving switch instants). -/
def lastSunday01UtcSecs (y : Int) (m : Nat) : Int :=
  let d31 := daysFromCivil y m 31
  let wd : Int := (d31 + 4) % 7
  (d31 - wd) * 86400 + 3600

def parisDstStart (y : Int) : Int := lastSunday01UtcSecs y 3

def parisDstStop (y : Int) : Int := lastSunday01UtcSecs y 10

/-- UTC offset (seconds) of Europe/Paris at a UTC instant. -/
def parisOffsetUtc (t : Int) : Int :=
  let y := (civilFromDays (Int.fdiv t 86400)).1
  if parisDstStart y ≤ t ∧ t < parisDstStop y then 7200 else 3600

/-- `NaiveDateTime::and_local_timezone(Paris)` followed by the `LocalResult`
handling in `TimestampSecondsParis::from_formatted`: a unique offset gives
`Single`, both offsets valid is `Ambiguous` and the code keeps the earliest
instant (the larger offset), and neither valid is the spring-forward gap,
which panics (`none`). -/
def localToUtcParis (naive : Int) : Option Int :=
  if parisOffsetUtc (naive - 7200) = 7200 then some (naive - 7200)
  else if parisOffsetUtc (naive - 3600) = 3600 then some (naive - 3600)
  else none

def digitVal (c : Char) : Option Nat :=
  if c.isDigit then some (c.toNat - 48) else none

def d2 (a b : Char) : Option Nat := do
  let x ← digitVal a
  let y ← digitVal b
  pure (10 * x + y)

def d4 (a b c d : Char) : Option Nat := do
  let x ← d2 a b
  let y ← d2 c d
  pure (100 * x + y)

def validDate (y : Int) (m d : Nat) : Bool :=
  1 ≤ m && m ≤ 12 && 1 ≤ d && d ≤ daysInMonth y m

def validTime (h mi s : Nat) : Bool :=
  h < 24 && mi < 60 && s < 60

/-- Parse `%Y%m%dT%H%M%S` into naive (timezone-less) epoch seconds. -/
def parseCompactDT (x : String) : Option Int :=
  match x.toList with
  | [y1, y2, y3, y4, mo1, mo2, dd1, dd2, t, h1, h2, mi1, mi2, s1, s2] => do
    if t = 'T' then pure () else none
    let y ← d4 y1 y2 y3 y4
    let mo ← d2 mo1 mo2
    let dd ← d2 dd1 dd2
    let h ← d2 h1 h2
    let mi ← d2 mi1 mi2
    let s ← d2 s1 s2
    if validDate (y : Int) mo dd ∧ validTime h mi s then pure () else none
    pure (daysFromCivil (y : Int) mo dd * 86400 + ((h * 3600 + mi * 60 + s : Nat) : Int))
  | _ => none

def pad2 (n : Nat) : String :=
  if n < 10 then "0" ++ toString n else toString n

def pad3 (n : Nat) : String :=
  if n < 10 then "00" ++ toString n
  else if n < 100 then "0" ++ toString n
  else toString n

def pad4 (y : Int) : String :=
  let n := y.toNat
  if n < 10 then "000" ++ toString n
  else if n < 100 then "00" ++ toString n
  else if n < 1000 then "0" ++ toString n
  else toString n

/-- Format epoch seconds as `%Y%m%dT%H%M%S`. -/
def formatCompactDT (t : Int) : String :=
  let days := Int.fdiv t 86400
  let sod := (t % 86400).toNat
  let c := civilFromDays days
  pad4 c.1 ++ pad2 c.2.1 ++ pad2 c.2.2 ++ "T" ++
    pad2 (sod / 3600) ++ pad2 (sod % 3600 / 60) ++ pad2 (sod % 60)

/-- `TimestampSecondsParis` (`src/schema/optimized.rs`): epoch seconds of a
Paris-local datetime. -/
structure TimestampSecondsParis where
  secs : Int
deriving DecidableEq

/-- `TimestampSecondsParis::from_formatted` with format `%Y%m%dT%H%M%S` (the
only format the code uses): parse the naive datetime, then resolve it in the
Paris timezone; `none` models the parse/gap panics. -/
def TimestampSecondsParis.from_formatted (x : String) : Option TimestampSecondsParis := do
  let naive ← parseCompactDT x
  let utc ← localToUtcParis naive
  pure ⟨utc⟩

/-- `TimestampSecondsParis::to_formatted` with format `%Y%m%dT%H%M%S`:
convert to Paris local time and format. -/
def TimestampSecondsParis.to_formatted (ts : TimestampSecondsParis) : String :=
  formatCompactDT (ts.secs + parisOffsetUtc ts.secs)

/-- `TimestampMillis` (`src/schema/optimized.rs`): epoch milliseconds. -/
structure TimestampMillis where
  millis : Int
deriving DecidableEq

def digitsValGo (acc : Nat) : List Char → Option Nat
  | [] => some acc
  | c :: rest => do
    let v ← digitVal c
    digitsValGo (10 * acc + v) rest

/-- Optional RFC 3339 fractional-second part: `.` followed by 1–9 digits;
returns milliseconds (sub-millisecond digits truncate, as
`DateTime::timestamp_millis` does) and the unconsumed characters. -/
def parseFrac : List Char → Option (Nat × List Char)
  | '.' :: rest => do
    let digits := rest.takeWhile Char.isDigit
    let rest2 := rest.dropWhile Char.isDigit
    if 1 ≤ digits.length ∧ digits.length ≤ 9 then pure () else none
    let frac ← digitsValGo 0 digits
    pure (frac * 10 ^ (9 - digits.length) / 1000000, rest2)
  | rest => pure (0, rest)

/-- RFC 3339 offset suffix: `Z` or `±HH:MM`. -/
def parseOffset : List Char → Option Int
  | [z] => do
    if z = 'Z' then pure () else none
    pure 0
  | [sgn, h1, h2, colon, m1, m2] => do
    if (sgn = '+' ∨ sgn = '-') ∧ colon = ':' then pure () else none
    let h ← d2 h1 h2
    let mi ← d2 m1 m2
    if h < 24 ∧ mi < 60 then pure () else none
    let off : Int := ((h * 3600 + mi * 60 : Nat) : Int)
    pure (if sgn = '+' then off else -off)
  | _ => none

/-- `TimestampMillis::from_rfc3339` (`DateTime::parse_from_rfc3339` followed
by `timestamp_millis`): parse the date, time, optional fraction and offset,
and return the UTC epoch milliseconds. -/
def TimestampMillis.from_rfc3339 (x : String) : Option TimestampMillis :=
  match x.toList with
  | y1 :: y2 :: y3 :: y4 :: da1 :: mo1 :: mo2 :: da2 :: dd1 :: dd2 :: t ::
      h1 :: h2 :: c1 :: mi1 :: mi2 :: c2 :: s1 :: s2 :: rest => do
    if da1 = '-' ∧ da2 = '-' ∧ t = 'T' ∧ c1 = ':' ∧ c2 = ':' then pure () else none
    let y ← d4 y1 y2 y3 y4
    let mo ← d2 mo1 mo2
    let dd ← d2 dd1 dd2
    let h ← d2 h1 h2
    let mi ← d2 mi1 mi2
    let s ← d2 s1 s2
    if validDate (y : Int) mo dd ∧ validTime h mi s then pure () else none
    let r ← parseFrac rest
    let off ← parseOffset r.2
    let naive := daysFromCivil (y : Int) mo dd * 86400 + ((h * 3600 + mi * 60 + s : Nat) : Int)
    pure ⟨(naive - off) * 1000 + (r.1 : Int)⟩
  | _ => none

/-- `TimestampMillis::to_rfc3339` (`to_rfc3339_opts(SecondsFormat::Millis,
true)`): format the UTC instant with exactly three fractional digits and a
`Z` suffix. -/
def TimestampMillis.to_rfc3339 (ts : TimestampMillis) : String :=
  let secs := Int.fdiv ts.millis 1000
  let ms := (ts.millis % 1000).toNat
  let days := Int.fdiv secs 86400
  let sod := (secs % 86400).toNat
  let c := civilFromDays days
  pad4 c.1 ++ "-" ++ pad2 c.2.1 ++ "-" ++ pad2 c.2.2 ++ "T" ++
    pad2 (sod / 3600) ++ ":" ++ pad2 (sod % 3600 / 60) ++ ":" ++ pad2 (sod % 60) ++
    "." ++ pad3 ms ++ "Z"

/-! ## Handles, canonical sets, and the two schema hierarchies

`Interned<T, Storage>` is a `u32` surrogate id with phantom type markers;
equality, ordering and hashing are over the id only.  The `Storage`
parameter (owned vs boxed representation) is erased by the embedding, so
`IString = Interned<str, Box<str>>` becomes `Interned String`. -/

/-- `Interned<T>`: an opaque handle holding only a slot id. -/
structure Interned (α : Type) where
  id : Nat
deriving DecidableEq

/-- `Uuid` (external `uuid` crate): an opaque 128-bit identifier; modelled as
an opaque numeric wrapper, since the code only ever compares, hashes and
interns whole `Uuid` values. -/
structure Uuid where
  val : Nat
deriving DecidableEq

/-- `InternedSet<T>`: an owned array of handles kept in ascending id order. -/
structure InternedSet (α : Type) where
  set : List (Interned α)
deriving DecidableEq

/-- Insertion step for sorting handles by ascending id. -/
def insertById (h : Interned α) : List (Interned α) → List (Interned α)
  | [] => [h]
  | x :: xs => if h.id ≤ x.id then h :: x :: xs else x :: insertById h xs

/-- Sort handles by ascending id (`sort_unstable` on ids; handles carry
nothing but their id, so stability is irrelevant). -/
def sortById : List (Interned α) → List (Interned α)
  | [] => []
  | x :: xs => insertById x (sortById xs)

/-- `InternedSet::new`: collect and sort ascending by id. -/
def InternedSet.new (l : List (Interned α)) : InternedSet α := ⟨sortById l⟩

/-- `InternedSet::set_eq_by`: delegate to the free `set_eq_by` on the sorted
handle array. -/
def InternedSet.set_eq_by (s : InternedSet α) (rhs : List β)
    (pred : Interned α → β → Bool) : Bool :=
  RustInterning.set_eq_by s.set rhs pred

/-- The `EqWith` impl for `Interned<T>`: resolve the handle and compare the
canonical value with the source value (`self.lookup_ref(interner) == other`);
a dangling handle panics in Rust, modelled as `false`. -/
def Interned.eqWith [DecidableEq α] (h : Interned α) (other : α)
    (s : Interner α) : Bool :=
  s.lookup h.id == some other

/-- `Interned::eq_with_more`: resolve the handle and run the resolved
value's own `eq_with` against the foreign value. -/
def Interned.eqWithMore (h : Interned α) (other : β) (s : Interner α)
    (eq : α → β → Bool) : Bool :=
  (s.lookup h.id).any (fun v => eq v other)

/-! ### The source schema (`src/schema/source.rs`) -/

structure SrcApplicationPeriod where
  begin : String
  «end» : String
deriving DecidableEq

/-- `source::Disruption`.  Note on `message`: `source.rs` declares
`message: Option<String>`, but `Disruption::from` and `Disruption::eq_with`
in `optimized.rs` consume it as a plain `String` (interning it directly and
comparing it against a non-optional `IString`); the two files only typecheck
together under the plain-`String` reading, which this embedding follows. -/
structure SrcDisruption where
  id : Uuid
  application_periods : List SrcApplicationPeriod
  last_update : String
  cause : String
  severity : String
  tags : Option (List String)
  title : String
  message : String
  short_message : Option String
  disruption_id : Option Uuid
deriving DecidableEq

structure SrcImpactedObject where
  typ : String
  id : String
  name : String
  disruption_ids : List Uuid
deriving DecidableEq

structure SrcLine where
  id : String
  name : String
  short_name : String
  mode : String
  network_id : String
  impacted_objects : List SrcImpactedObject
deriving DecidableEq

/-- `source::Data`: one flat record holding either the success fields or the
error fields. -/
structure SrcData where
  disruptions : Option (List SrcDisruption)
  lines : Option (List SrcLine)
  last_updated_date : Option String
  status_code : Option Int
  error : Option String
  message : Option String
deriving DecidableEq

/-! ### The compacted schema (`src/schema/optimized.rs`) -/

structure ApplicationPeriod where
  begin : TimestampSecondsParis
  «end» : TimestampSecondsParis
deriving DecidableEq

structure Disruption where
  id : Interned Uuid
  application_periods : InternedSet ApplicationPeriod
  last_update : TimestampSecondsParis
  cause : Interned String
  severity : Interned String
  tags : Option (InternedSet String)
  title : Interned String
  message : Interned String
  disruption_id : Option (Interned Uuid)
deriving DecidableEq

structure Object where
  typ : Interned String
  id : Interned String
  name : Interned String
deriving DecidableEq

structure ImpactedObject where
  object : Interned Object
  disruption_ids : Interned (InternedSet Uuid)
deriving DecidableEq

structure LineHeader where
  id : Interned String
  name : Interned String
  short_name : Interned String
  mode : Interned String
  network_id : Interned String
deriving DecidableEq

structure Line where
  header : Interned LineHeader
  impacted_objects : InternedSet ImpactedObject
deriving DecidableEq

structure DataSuccess where
  disruptions : Interned (InternedSet Disruption)
  lines : Interned (InternedSet Line)
  last_updated_date : TimestampMillis
deriving DecidableEq

structure DataError where
  status_code : Int
  error : Interned String
  message : Interned String
deriving DecidableEq

inductive Data where
  | success : DataSuccess → Data
  | error : DataError → Data
deriving DecidableEq

/-- The bundle of stores, one per interned type (`Interners` in
`src/schema/optimized.rs`). -/
structure Interners where
  string : Interner String
  uuid : Interner Uuid
  disruption_set : Interner (InternedSet Disruption)
  disruption : Interner Disruption
  application_period : Interner ApplicationPeriod
  line_set : Interner (InternedSet Line)
  line : Interner Line
  line_header : Interner LineHeader
  impacted_object : Interner ImpactedObject
  object : Interner Object
  uuid_set : Interner (InternedSet Uuid)
deriving DecidableEq

/-- `Interners::default()`. -/
def Interners.empty : Interners :=
  ⟨Interner.empty _, Interner.empty _, Interner.empty _, Interner.empty _,
    Interner.empty _, Interner.empty _, Interner.empty _, Interner.empty _,
    Interner.empty _, Interner.empty _, Interner.empty _⟩

/-! ### Interning helpers: `Interned::from(&mut interners.field, value)`
threaded as explicit state passing. -/

def Interners.internString (I : Interners) (v : String) : Interners × Interned String :=
  ({ I with string := (I.string.intern v).1 }, ⟨(I.string.intern v).2⟩)

def Interners.internUuid (I : Interners) (v : Uuid) : Interners × Interned Uuid :=
  ({ I with uuid := (I.uuid.intern v).1 }, ⟨(I.uuid.intern v).2⟩)

def Interners.internDisruption (I : Interners) (v : Disruption) :
    Interners × Interned Disruption :=
  ({ I with disruption := (I.disruption.intern v).1 }, ⟨(I.disruption.intern v).2⟩)

def Interners.internDisruptionSet (I : Interners) (v : InternedSet Disruption) :
    Interners × Interned (InternedSet Disruption) :=
  ({ I with disruption_set := (I.disruption_set.intern v).1 },
    ⟨(I.disruption_set.intern v).2⟩)

def Interners.internApplicationPeriod (I : Interners) (v : ApplicationPeriod) :
    Interners × Interned ApplicationPeriod :=
  ({ I with application_period := (I.application_period.intern v).1 },
    ⟨(I.application_period.intern v).2⟩)

def Interners.internLine (I : Interners) (v : Line) : Interners × Interned Line :=
  ({ I with line := (I.line.intern v).1 }, ⟨(I.line.intern v).2⟩)

def Interners.internLineSet (I : Interners) (v : InternedSet Line) :
    Interners × Interned (InternedSet Line) :=
  ({ I with line_set := (I.line_set.intern v).1 }, ⟨(I.line_set.intern v).2⟩)

def Interners.internLineHeader (I : Interners) (v : LineHeader) :
    Interners × Interned LineHeader :=
  ({ I with line_header := (I.line_header.intern v).1 }, ⟨(I.line_header.intern v).2⟩)

def Interners.internImpactedObject (I : Interners) (v : ImpactedObject) :
    Interners × Interned ImpactedObject :=
  ({ I with impacted_object := (I.impacted_object.intern v).1 },
    ⟨(I.impacted_object.intern v).2⟩)

def Interners.internObject (I : Interners) (v : Object) : Interners × Interned Object :=
  ({ I with object := (I.object.intern v).1 }, ⟨(I.object.intern v).2⟩)

def Interners.internUuidSet (I : Interners) (v : InternedSet Uuid) :
    Interners × Interned (InternedSet Uuid) :=
  ({ I with uuid_set := (I.uuid_set.intern v).1 }, ⟨(I.uuid_set.intern v).2⟩)

/-! ### The equivalence protocol (`EqWith` impls in `src/schema/optimized.rs`) -/

def ApplicationPeriod.eqWith (a : ApplicationPeriod) (o : SrcApplicationPeriod)
    (_I : Interners) : Bool :=
  a.begin.to_formatted == o.begin && a.«end».to_formatted == o.«end»

def Disruption.eqWith (d : Disruption) (o : SrcDisruption) (I : Interners) : Bool :=
  d.id.eqWith o.id I.uuid
    && d.application_periods.set_eq_by o.application_periods
      (fun x y => x.eqWithMore y I.application_period (fun a b => a.eqWith b I))
    && (d.last_update.to_formatted == o.last_update)
    && d.cause.eqWith o.cause I.string
    && d.severity.eqWith o.severity I.string
    && option_eq_by d.tags o.tags
      (fun x y => x.set_eq_by y (fun hx sy => hx.eqWith sy I.string))
    && d.title.eqWith o.title I.string
    && d.message.eqWith o.message I.string
    && option_eq_by d.disruption_id o.disruption_id (fun x y => x.eqWith y I.uuid)

def Object.eqWith (ob : Object) (o : SrcImpactedObject) (I : Interners) : Bool :=
  ob.typ.eqWith o.typ I.string
    && ob.id.eqWith o.id I.string
    && ob.name.eqWith o.name I.string

def ImpactedObject.eqWith (io : ImpactedObject) (o : SrcImpactedObject)
    (I : Interners) : Bool :=
  io.object.eqWithMore o I.object (fun v y => v.eqWith y I)
    && (I.uuid_set.lookup io.disruption_ids.id).any
      (fun s => s.set_eq_by o.disruption_ids (fun x y => x.eqWith y I.uuid))

def LineHeader.eqWith (lh : LineHeader) (o : SrcLine) (I : Interners) : Bool :=
  lh.id.eqWith o.id I.string
    && lh.name.eqWith o.name I.string
    && lh.short_name.eqWith o.short_name I.string
    && lh.mode.eqWith o.mode I.string
    && lh.network_id.eqWith o.network_id I.string

def Line.eqWith (l : Line) (o : SrcLine) (I : Interners) : Bool :=
  l.header.eqWithMore o I.line_header (fun v y => v.eqWith y I)
    && l.impacted_objects.set_eq_by o.impacted_objects
      (fun x y => x.eqWithMore y I.impacted_object (fun v z => v.eqWith z I))

def DataSuccess.eqWith (d : DataSuccess) (o : SrcData) (I : Interners) : Bool :=
  (o.disruptions.any fun other =>
      (I.disruption_set.lookup d.disruptions.id).any fun s =>
        s.set_eq_by other (fun x y => x.eqWithMore y I.disruption (fun v z => v.eqWith z I)))
    && (o.lines.any fun other =>
      (I.line_set.lookup d.lines.id).any fun s =>
        s.set_eq_by other (fun x y => x.eqWithMore y I.line (fun v z => v.eqWith z I)))
    && (o.last_updated_date.any fun other => d.last_updated_date.to_rfc3339 == other)
    && o.status_code.isNone
    && o.error.isNone
    && o.message.isNone

def DataError.eqWith (e : DataError) (o : SrcData) (I : Interners) : Bool :=
  (o.status_code.any fun other => e.status_code == other)
    && (o.error.any fun other => e.error.eqWith other I.string)
    && (o.message.any fun other => e.message.eqWith other I.string)
    && o.disruptions.isNone
    && o.lines.isNone
    && o.last_updated_date.isNone

def Data.eqWith : Data → SrcData → Interners → Bool
  | Data.success d, o, I => d.eqWith o I
  | Data.error e, o, I => e.eqWith o I

/-! ### The schema mapping (`Type::from(interners, source)` constructors),
with the interner state threaded explicitly in the Rust evaluation order and
`Option` modelling the panics on unparseable datetimes and invalid records. -/

def ApplicationPeriod.fromSource (src : SrcApplicationPeriod) :
    Option ApplicationPeriod := do
  let b ← TimestampSecondsParis.from_formatted src.begin
  let e ← TimestampSecondsParis.from_formatted src.«end»
  pure ⟨b, e⟩

def internAPList (I : Interners) :
    List SrcApplicationPeriod → Option (Interners × List (Interned ApplicationPeriod))
  | [] => some (I, [])
  | x :: xs => do
    let ap ← ApplicationPeriod.fromSource x
    let r := I.internApplicationPeriod ap
    let rest ← internAPList r.1 xs
    pure (rest.1, r.2 :: rest.2)

def internStringList (I : Interners) : List String → Interners × List (Interned String)
  | [] => (I, [])
  | x :: xs =>
    let r := I.internString x
    let rest := internStringList r.1 xs
    (rest.1, r.2 :: rest.2)

def internUuidList (I : Interners) : List Uuid → Interners × List (Interned Uuid)
  | [] => (I, [])
  | x :: xs =>
    let r := I.internUuid x
    let rest := internUuidList r.1 xs
    (rest.1, r.2 :: rest.2)

/-- `Disruption::from`: intern each field in declaration order (the order the
struct-literal fields are evaluated in Rust). -/
def Disruption.fromSource (I : Interners) (src : SrcDisruption) :
    Option (Interners × Disruption) := do
  let r1 := I.internUuid src.id
  let raps ← internAPList r1.1 src.application_periods
  let lu ← TimestampSecondsParis.from_formatted src.last_update
  let rc := raps.1.internString src.cause
  let rs := rc.1.internString src.severity
  let rt : Interners × Option (InternedSet String) :=
    match src.tags with
    | none => (rs.1, none)
    | some ts =>
      let r := internStringList rs.1 ts
      (r.1, some (InternedSet.new r.2))
  let rti := rt.1.internString src.title
  let rm := rti.1.internString src.message
  let rd : Interners × Option (Interned Uuid) :=
    match src.disruption_id with
    | none => (rm.1, none)
    | some u =>
      let r := rm.1.internUuid u
      (r.1, some r.2)
  pure (rd.1,
    { id := r1.2
      application_periods := InternedSet.new raps.2
      last_update := lu
      cause := rc.2
      severity := rs.2
      tags := rt.2
      title := rti.2
      message := rm.2
      disruption_id := rd.2 })

/-- `ImpactedObject::from`: the `disruption_ids` set is built (interning the
uuids) before the `Object` literal's strings, the object handle, and finally
the uuid-set handle. -/
def ImpactedObject.fromSource (I : Interners) (src : SrcImpactedObject) :
    Interners × ImpactedObject :=
  let rids := internUuidList I src.disruption_ids
  let dset := InternedSet.new rids.2
  let rtyp := rids.1.internString src.typ
  let rid := rtyp.1.internString src.id
  let rname := rid.1.internString src.name
  let robj := rname.1.internObject ⟨rtyp.2, rid.2, rname.2⟩
  let rset := robj.1.internUuidSet dset
  (rset.1, ⟨robj.2, rset.2⟩)

def internImpactedObjectList (I : Interners) :
    List SrcImpactedObject → Interners × List (Interned ImpactedObject)
  | [] => (I, [])
  | x :: xs =>
    let r := ImpactedObject.fromSource I x
    let rh := r.1.internImpactedObject r.2
    let rest := internImpactedObjectList rh.1 xs
    (rest.1, rh.2 :: rest.2)

/-- `Line::from`: the `LineHeader` literal's five strings, the header
handle, then the impacted objects. -/
def Line.fromSource (I : Interners) (src : SrcLine) : Interners × Line :=
  let rid := I.internString src.id
  let rname := rid.1.internString src.name
  let rshort := rname.1.internString src.short_name
  let rmode := rshort.1.internString src.mode
  let rnet := rmode.1.internString src.network_id
  let rheader := rnet.1.internLineHeader ⟨rid.2, rname.2, rshort.2, rmode.2, rnet.2⟩
  let rios := internImpactedObjectList rheader.1 src.impacted_objects
  (rios.1, ⟨rheader.2, InternedSet.new rios.2⟩)

def internDisruptionList (I : Interners) :
    List SrcDisruption → Option (Interners × List (Interned Disruption))
  | [] => some (I, [])
  | x :: xs => do
    let r ← Disruption.fromSource I x
    let rh := r.1.internDisruption r.2
    let rest ← internDisruptionList rh.1 xs
    pure (rest.1, rh.2 :: rest.2)

def internLineList (I : Interners) : List SrcLine → Interners × List (Interned Line)
  | [] => (I, [])
  | x :: xs =>
    let r := Line.fromSource I x
    let rh := r.1.internLine r.2
    let rest := internLineList rh.1 xs
    (rest.1, rh.2 :: rest.2)

/-- `Data::from`: accept exactly the complete success field set or the
complete error field set; everything else panics (`none`).  In the success
branch the disruption and line sets are compacted first, then the two set
handles are interned in field order, then the date is parsed. -/
def Data.fromSource (I : Interners) (src : SrcData) : Option (Interners × Data) :=
  match src.disruptions, src.lines, src.last_updated_date,
      src.status_code, src.error, src.message with
  | some disruptions, some lines, some last_updated_date, none, none, none => do
    let rds ← internDisruptionList I disruptions
    let dset := InternedSet.new rds.2
    let rls := internLineList rds.1 lines
    let lset := InternedSet.new rls.2
    let rdh := rls.1.internDisruptionSet dset
    let rlh := rdh.1.internLineSet lset
    let lud ← TimestampMillis.from_rfc3339 last_updated_date
    pure (rlh.1, Data.success ⟨rdh.2, rlh.2, lud⟩)
  | none, none, none, some sc, some err, some msg =>
    let re := I.internString err
    let rm := re.1.internString msg
    some (rm.1, Data.error ⟨sc, re.2, rm.2⟩)
  | _, _, _, _, _, _ => none

/-! ## The claims -/

theorem probe_sound [DecidableEq α] (s : Interner α) (v : α) (i : Nat)
    (h : s.probe v = some i) : s.vec.get? i = some v := by
  rw [Interner.probe] at h
  have := List.find?_some h
  simpa using this

/-- Claim C2: replaying any sequence of `intern` calls on one store starting
empty, content-equal values receive the same id (the position of the value's
first occurrence among the distinct values), content-distinct values receive
distinct ids, and the ids are dense — the k-th distinct value in order of
first occurrence holds id k.  (The quantification "regardless of concrete
representation: owned, borrowed, boxed" of the Rust `Borrow`/`Into`
machinery is erased by the embedding, which stores content directly; dedup
is by content equality, as this theorem states.) -/
theorem c2_dedup_correctness (α : Type) [DecidableEq α] (vs : List α) :
    ((Interner.empty α).internAll vs).2 =
        vs.map (fun v => (firstOccs vs).indexOf v) ∧
      ((Interner.empty α).internAll vs).1.vec = firstOccs vs ∧
      (firstOccs vs).Nodup ∧
      (∀ v ∈ vs, (firstOccs vs).indexOf v < (firstOccs vs).length) ∧
      (∀ v w, v ∈ vs → w ∈ vs →
        ((firstOccs vs).indexOf v = (firstOccs vs).indexOf w ↔ v = w)) ∧
      (∀ (i : Nat) (h : i < (firstOccs vs).length),
        (firstOccs vs).indexOf ((firstOccs vs).get ⟨i, h⟩) = i) := by
  have hInv : (Interner.empty α).Inv := ⟨by simp [Interner.empty], List.nodup_nil⟩
  obtain ⟨h1, h2, h3⟩ := internAll_spec vs (Interner.empty α) hInv
  refine ⟨?_, h1, firstOccs_nodup vs, ?_, ?_, ?_⟩
  · rw [h3]
    exact idsOf_eq_map_indexOf vs [] List.nodup_nil
  · intro v hv
    exact List.indexOf_lt_length.mpr ((mem_firstOccs vs v).mpr hv)
  · intro v w hv hw
    exact List.indexOf_inj ((mem_firstOccs vs v).mpr hv) ((mem_firstOccs vs w).mpr hw)
  · intro i h
    have := List.indexOf_getElem (firstOccs_nodup vs) i h
    simpa [List.get_eq_getElem] using this

theorem c2_dedup_correctness_witness :
    ((Interner.empty Nat).internAll [7, 7, 3]).2 = [0, 0, 1] ∧
      ((Interner.empty Nat).internAll [7, 7, 3]).1.vec = [7, 3] ∧
      (firstOccs [7, 7, 3]).indexOf 7 < (firstOccs [7, 7, 3]).length := by
  obtain ⟨h1, h2, _, h4, _, _⟩ := c2_dedup_correctness Nat [7, 7, 3]
  exact ⟨h1.trans (by decide), h2.trans (by decide), h4 7 (by decide)⟩

/-- Claim C4: looking up the handle returned by `intern(v)` in the same
store yields `v` back.  The `WF` hypothesis (every id registered in the
dedup index is in range of the backing vector) delimits the states on which
the Rust probe closure does not panic; every store reachable through the
API satisfies it. -/
theorem c4_lookup_intern (α : Type) [DecidableEq α] (s : Interner α) (v : α)
    (hwf : s.WF) :
    (s.intern v).1.lookup (s.intern v).2 = some v := by
  rw [Interner.intern]
  cases hp : Interner.probe { s with references := s.references + 1 } v with
  | some i =>
    have hs := probe_sound _ v i hp
    simp only [hp, Interner.lookup]
    exact hs
  | none =>
    simp only [hp, Interner.lookup]
    rw [List.get?_eq_getElem?]
    exact List.getElem?_concat_length _ _

theorem c4_lookup_intern_witness :
    ((Interner.empty Nat).intern 5).1.lookup ((Interner.empty Nat).intern 5).2 =
      some 5 :=
  c4_lookup_intern Nat (Interner.empty Nat) 5 (by intro i hi; simp [Interner.empty] at hi)

/-- Claim C5: the empty store satisfies the invariant, `intern` preserves it
(so every sequence of interns does, as the last conjunct spells out for
sequences), and on invariant states the dedup index resolves every stored
value to the id of its unique occurrence — the index entry for each value
(keyed in Rust by the value's hash, erased here since collisions are
resolved by the content-equality probe) is consistent with the backing
sequence.  `Inv` includes `Nodup`: no two distinct ids hold equal values. -/
theorem c5_invariant_preservation (α : Type) [DecidableEq α] :
    (Interner.empty α).Inv ∧
      (∀ (s : Interner α) (v : α), s.Inv →
        (s.intern v).1.Inv ∧
          ∀ w ∈ (s.intern v).1.vec,
            (s.intern v).1.probe w = some ((s.intern v).1.vec.indexOf w)) ∧
      (∀ vs : List α, ((Interner.empty α).internAll vs).1.Inv) := by
  have hEmpty : (Interner.empty α).Inv := ⟨by simp [Interner.empty], List.nodup_nil⟩
  refine ⟨hEmpty, ?_, ?_⟩
  · intro s v hInv
    refine ⟨intern_preserves_inv s hInv v, ?_⟩
    intro w hw
    rw [probe_inv _ (intern_preserves_inv s hInv v) w, if_pos hw]
  · intro vs
    exact (internAll_spec vs (Interner.empty α) hEmpty).2.1

theorem c5_invariant_preservation_witness :
    ((Interner.empty Nat).intern 3).1.Inv :=
  ((c5_invariant_preservation Nat).2.1 (Interner.empty Nat) 3
    (c5_invariant_preservation Nat).1).1

/-- Claim C9: a store serializes as the ordered sequence of canonical values
only; replaying `push` once per value, in order, regenerates the ids
`0, 1, …, len-1` — each value receives the identical id it had in the
original store — rebuilds the dedup index, and the deserialized store
compares equal to the original under `Interner`'s `PartialEq` (which
compares the value sequences). -/
theorem c9_serialization_roundtrip (α : Type) (s : Interner α) :
    Interner.rustEq (Interner.deserialize α s.serialize) s ∧
      (Interner.deserialize α s.serialize).vec = s.vec ∧
      ((Interner.empty α).pushAll s.serialize).2 = List.range s.vec.length ∧
      (Interner.deserialize α s.serialize).map = List.range s.vec.length := by
  obtain ⟨h1, h2, h3, _⟩ := pushAll_spec s.serialize (Interner.empty α)
  have hmap : ∀ n : Nat, (List.range n).map (fun k => 0 + k) = List.range n := by
    intro n
    simp
  have hv : (Interner.deserialize α s.serialize).vec = s.vec := by
    rw [Interner.deserialize, h1]
    simp [Interner.empty, Interner.serialize]
  refine ⟨hv, hv, ?_, ?_⟩
  · rw [h3]
    simp only [Interner.empty, Interner.serialize]
    exact hmap _
  · rw [Interner.deserialize, h2]
    simp only [Interner.empty, Interner.serialize, List.nil_append]
    exact hmap _

/-- Claim C3 counterexample: `[2^31]` is a sorted, duplicate-free sequence
of `u32` ids, yet it does not round-trip: the encoder's `diff as i32` cast
turns the difference `2^31` into the token `-2^31`, which the decoder treats
as a (wrapping, hence empty) run, so decoding yields `[]`.  (In a debug
build the decoder's `-x` on `i32::MIN` panics instead — the round-trip fails
either way.) -/
theorem c3_rle_counterexample :
    List.Pairwise (· < ·) [2 ^ 31] ∧
      rleDecode (rleEncode [2 ^ 31]) = [] ∧
      rleDecode (rleEncode [2 ^ 31]) ≠ [2 ^ 31] := by
  refine ⟨by decide, by decide, by decide⟩

/-- Claim C3, amended: for every sorted, duplicate-free sequence of ids that
are all below `2^31` (so every emitted token fits in a non-negative `i32`),
decoding the encoded token sequence yields the original sequence; and the
ids `[5,6,7,10,12,13,14]` encode to exactly `[5,-2,3,2,-2]`, which decodes
back to them. -/
theorem c3_rle_roundtrip_amended (ids : List Nat)
    (hpair : List.Pairwise (· < ·) ids) (hub : ∀ x ∈ ids, x < 2 ^ 31) :
    rleDecode (rleEncode ids) = ids ∧
      rleEncode [5, 6, 7, 10, 12, 13, 14] = [5, -2, 3, 2, -2] ∧
      rleDecode [5, -2, 3, 2, -2] = [5, 6, 7, 10, 12, 13, 14] :=
  ⟨rle_roundtrip ids hpair hub, by decide, by decide⟩

theorem c3_rle_roundtrip_amended_witness :
    rleDecode (rleEncode [5, 6, 7, 10, 12, 13, 14]) = [5, 6, 7, 10, 12, 13, 14] :=
  (c3_rle_roundtrip_amended [5, 6, 7, 10, 12, 13, 14] (by decide) (by decide)).1

/-- Claim C8: `set_eq_by` returns false whenever the slice lengths differ;
two empty slices compare true; and a one-element canonical side against a
one-element raw side compares exactly as the predicate on the pair. -/
theorem c8_set_eq_by_small :
    (∀ (α β : Type) (lhs : List α) (rhs : List β) (pred : α → β → Bool),
        lhs.length ≠ rhs.length → set_eq_by lhs rhs pred = false) ∧
      (∀ (α β : Type) (pred : α → β → Bool),
        set_eq_by ([] : List α) ([] : List β) pred = true) ∧
      (∀ (α β : Type) (x : α) (y : β) (pred : α → β → Bool),
        set_eq_by [x] [y] pred = pred x y) := by
  refine ⟨?_, ?_, ?_⟩
  · intro α β lhs rhs pred h
    rw [set_eq_by, if_pos h]
  · intro α β pred
    rfl
  · intro α β x y pred
    rw [set_eq_by, if_neg (by simp)]
    cases hp : pred x y
    · simp [set_eq_by_go, markFirst, hp]
    · simp [set_eq_by_go, markFirst, hp]

theorem c8_set_eq_by_small_witness :
    set_eq_by [0] ([] : List Nat) (fun a b => a == b) = false :=
  c8_set_eq_by_small.1 Nat Nat [0] [] (fun a b => a == b) (by decide)

/-- Claim C6: a compacted `Data::Success` is `eq_with`-equivalent to a
source record only if the three error-variant fields are `None` in the
source and each success field is present and matches (the disruptions and
lines through the set-equivalence predicate the code uses, the date by
formatted-string equality); symmetrically for `Data::Error`. -/
theorem c6_variant_match_only_if :
    (∀ (d : DataSuccess) (o : SrcData) (I : Interners),
      Data.eqWith (Data.success d) o I = true →
        o.status_code = none ∧ o.error = none ∧ o.message = none ∧
        (∃ ds, o.disruptions = some ds ∧
          ((I.disruption_set.lookup d.disruptions.id).any fun s =>
            s.set_eq_by ds (fun x y => x.eqWithMore y I.disruption
              (fun v z => v.eqWith z I))) = true) ∧
        (∃ ls, o.lines = some ls ∧
          ((I.line_set.lookup d.lines.id).any fun s =>
            s.set_eq_by ls (fun x y => x.eqWithMore y I.line
              (fun v z => v.eqWith z I))) = true) ∧
        (∃ lud, o.last_updated_date = some lud ∧
          d.last_updated_date.to_rfc3339 = lud)) ∧
    (∀ (e : DataError) (o : SrcData) (I : Interners),
      Data.eqWith (Data.error e) o I = true →
        o.disruptions = none ∧ o.lines = none ∧ o.last_updated_date = none ∧
        (∃ sc, o.status_code = some sc ∧ e.status_code = sc) ∧
        (∃ er, o.error = some er ∧ e.error.eqWith er I.string = true) ∧
        (∃ ms, o.message = some ms ∧ e.message.eqWith ms I.string = true)) := by
  constructor
  · intro d o I h
    simp only [Data.eqWith, DataSuccess.eqWith, Bool.and_eq_true] at h
    obtain ⟨⟨⟨⟨⟨hds, hls⟩, hlud⟩, hsc⟩, her⟩, hms⟩ := h
    refine ⟨Option.isNone_iff_eq_none.mp hsc, Option.isNone_iff_eq_none.mp her,
      Option.isNone_iff_eq_none.mp hms, ?_, ?_, ?_⟩
    · cases hod : o.disruptions with
      | none => rw [hod] at hds; simp [Option.any] at hds
      | some ds =>
        rw [hod] at hds
        exact ⟨ds, rfl, by simpa [Option.any] using hds⟩
    · cases hol : o.lines with
      | none => rw [hol] at hls; simp [Option.any] at hls
      | some ls =>
        rw [hol] at hls
        exact ⟨ls, rfl, by simpa [Option.any] using hls⟩
    · cases holu : o.last_updated_date with
      | none => rw [holu] at hlud; simp [Option.any] at hlud
      | some lud =>
        rw [holu] at hlud
        simp only [Option.any, beq_iff_eq] at hlud
        exact ⟨lud, rfl, hlud⟩
  · intro e o I h
    simp only [Data.eqWith, DataError.eqWith, Bool.and_eq_true] at h
    obtain ⟨⟨⟨⟨⟨hsc, her⟩, hms⟩, hds⟩, hls⟩, hlud⟩ := h
    refine ⟨Option.isNone_iff_eq_none.mp hds, Option.isNone_iff_eq_none.mp hls,
      Option.isNone_iff_eq_none.mp hlud, ?_, ?_, ?_⟩
    · cases hoc : o.status_code with
      | none => rw [hoc] at hsc; simp [Option.any] at hsc
      | some sc =>
        rw [hoc] at hsc
        simp only [Option.any, beq_iff_eq] at hsc
        exact ⟨sc, rfl, hsc⟩
    · cases hoe : o.error with
      | none => rw [hoe] at her; simp [Option.any] at her
      | some er =>
        rw [hoe] at her
        exact ⟨er, rfl, by simpa [Option.any] using her⟩
    · cases hom : o.message with
      | none => rw [hom] at hms; simp [Option.any] at hms
      | some ms =>
        rw [hom] at hms
        exact ⟨ms, rfl, by simpa [Option.any] using hms⟩

/-- Concrete store for the C6 witness: two canonical strings. -/
def c6Interners : Interners :=
  { Interners.empty with string := ⟨["oops", "down"], [0, 1], 0⟩ }

def c6DataError : DataError := ⟨500, ⟨0⟩, ⟨1⟩⟩

def c6SrcError : SrcData := ⟨none, none, none, some 500, some "oops", some "down"⟩

theorem c6_variant_match_only_if_witness :
    c6SrcError.disruptions = none ∧ c6SrcError.lines = none ∧
      c6SrcError.last_updated_date = none ∧
      (∃ sc, c6SrcError.status_code = some sc ∧ c6DataError.status_code = sc) ∧
      (∃ er, c6SrcError.error = some er ∧
        c6DataError.error.eqWith er c6Interners.string = true) ∧
      (∃ ms, c6SrcError.message = some ms ∧
        c6DataError.message.eqWith ms c6Interners.string = true) :=
  c6_variant_match_only_if.2 c6DataError c6SrcError c6Interners (by decide)

/-- Claim C7: `Data::from` is fatal (panics, modelled `none`) on every
source record whose optional fields form neither the complete success set
nor the complete error set. -/
theorem c7_variant_exclusivity (I : Interners) (o : SrcData)
    (h1 : ¬(o.disruptions.isSome = true ∧ o.lines.isSome = true ∧
      o.last_updated_date.isSome = true ∧ o.status_code = none ∧
      o.error = none ∧ o.message = none))
    (h2 : ¬(o.disruptions = none ∧ o.lines = none ∧ o.last_updated_date = none ∧
      o.status_code.isSome = true ∧ o.error.isSome = true ∧ o.message.isSome = true)) :
    Data.fromSource I o = none := by
  obtain ⟨ds, ls, lud, sc, er, ms⟩ := o
  cases ds <;> cases ls <;> cases lud <;> cases sc <;> cases er <;> cases ms <;>
    simp_all [Data.fromSource]

/-- In particular (the instance the claim names): a record with both
`status_code` and `disruptions` set is rejected. -/
theorem c7_variant_exclusivity_witness :
    Data.fromSource Interners.empty
      ⟨some [], none, none, some 500, none, none⟩ = none :=
  c7_variant_exclusivity Interners.empty ⟨some [], none, none, some 500, none, none⟩
    (by decide) (by decide)

/-- Claim C10: `Disruption::eq_with` never reads the source's
`short_message` field — the compacted `Disruption` has no corresponding
field — so its result is unchanged between two source disruptions that
agree on every other field. -/
theorem c10_short_message_independence (d : Disruption) (I : Interners)
    (s1 s2 : SrcDisruption)
    (hid : s1.id = s2.id)
    (hap : s1.application_periods = s2.application_periods)
    (hlu : s1.last_update = s2.last_update)
    (hc : s1.cause = s2.cause)
    (hsv : s1.severity = s2.severity)
    (htg : s1.tags = s2.tags)
    (hti : s1.title = s2.title)
    (hm : s1.message = s2.message)
    (hdi : s1.disruption_id = s2.disruption_id) :
    d.eqWith s1 I = d.eqWith s2 I := by
  simp only [Disruption.eqWith, hid, hap, hlu, hc, hsv, htg, hti, hm, hdi]

def c10Disruption : Disruption :=
  { id := ⟨0⟩
    application_periods := ⟨[]⟩
    last_update := ⟨1704452400⟩
    cause := ⟨0⟩
    severity := ⟨1⟩
    tags := none
    title := ⟨2⟩
    message := ⟨3⟩
    disruption_id := none }

def c10Src1 : SrcDisruption :=
  { id := ⟨1111⟩
    application_periods := []
    last_update := "20240105T120000"
    cause := "travaux"
    severity := "bloquante"
    tags := none
    title := "Titre"
    message := "Message"
    short_message := some "Court"
    disruption_id := none }

def c10Src2 : SrcDisruption := { c10Src1 with short_message := none }

theorem c10_short_message_independence_witness :
    c10Disruption.eqWith c10Src1 Interners.empty =
      c10Disruption.eqWith c10Src2 Interners.empty :=
  c10_short_message_independence c10Disruption Interners.empty c10Src1 c10Src2
    rfl rfl rfl rfl rfl rfl rfl rfl rfl

/-! ### The concrete end-to-end record of claim C1 -/

def apD1 : SrcApplicationPeriod := { begin := "20240110T080000", «end» := "20240110T170000" }

def apD2 : SrcApplicationPeriod := { begin := "20240210T083000", «end» := "20240210T173000" }

def srcD1 : SrcDisruption :=
  { id := ⟨1111⟩
    application_periods := [apD1]
    last_update := "20240105T120000"
    cause := "travaux"
    severity := "bloquante"
    tags := some ["actualite"]
    title := "Titre un"
    message := "Message un"
    short_message := some "Court un"
    disruption_id := some ⟨2222⟩ }

def srcD2 : SrcDisruption :=
  { id := ⟨3333⟩
    application_periods := [apD2]
    last_update := "20240205T121500"
    cause := "incident"
    severity := "perturbee"
    tags := some ["information"]
    title := "Titre deux"
    message := "Message deux"
    short_message := some "Court deux"
    disruption_id := some ⟨4444⟩ }

/-- The C1 source record: `disruptions=[D1,D2]`, `lines=[]`,
`last_updated_date="2024-01-01T00:00:00.000Z"`. -/
def c1Src : SrcData :=
  { disruptions := some [srcD1, srcD2]
    lines := some []
    last_updated_date := some "2024-01-01T00:00:00.000Z"
    status_code := none
    error := none
    message := none }

/-- Compact `orig` with `Data::from` from empty stores, then `eq_with`-check
the compacted value against `mutated`; `none` if compaction panics. -/
def checkAgainst (orig mutated : SrcData) : Option Bool :=
  (Data.fromSource Interners.empty orig).map (fun r => r.2.eqWith mutated r.1)

/-- `c1Src` with its first disruption replaced by a mutation of `D1`. -/
def withD1 (f : SrcDisruption → SrcDisruption) : SrcData :=
  { c1Src with disruptions := some [f srcD1, srcD2] }

/-- `c1Src` with its second disruption replaced by a mutation of `D2`. -/
def withD2 (f : SrcDisruption → SrcDisruption) : SrcData :=
  { c1Src with disruptions := some [srcD1, f srcD2] }

/-- Claim C1 counterexample: the claim asserts that mutating any single leaf
field of the source record after compaction makes `eq_with` return false,
but `short_message` is a leaf field of the source disruption, and mutating
it leaves `eq_with` true: the compacted `Disruption` has no corresponding
field and `Disruption::eq_with` never reads it. -/
theorem c1_leaf_mutation_counterexample :
    checkAgainst c1Src (withD1 fun d => { d with short_message := some "Autre" }) =
      some true := by decide

/-- Claim C1, amended: compacting the C1 record and `eq_with`-checking it
against the unmutated source returns true, and mutating any single leaf
field of the source other than `short_message` (the top-level date; each
disruption's id, application-period bounds, last-update, cause, severity,
tag, title, message, and disruption-id — including dropping the optional
tags and disruption-id) makes `eq_with` return false, while mutating a
`short_message` leaves it true. -/
theorem c1_equivalence_end_to_end :
    checkAgainst c1Src c1Src = some true ∧
      checkAgainst c1Src
        { c1Src with last_updated_date := some "2024-01-01T00:00:01.000Z" } = some false ∧
      checkAgainst c1Src (withD1 fun d => { d with id := ⟨9999⟩ }) = some false ∧
      checkAgainst c1Src (withD1 fun d =>
        { d with application_periods := [{ apD1 with begin := "20240110T080001" }] }) = some false ∧
      checkAgainst c1Src (withD1 fun d =>
        { d with application_periods := [{ apD1 with «end» := "20240110T170001" }] }) = some false ∧
      checkAgainst c1Src (withD1 fun d => { d with last_update := "20240105T120001" }) = some false ∧
      checkAgainst c1Src (withD1 fun d => { d with cause := "grave" }) = some false ∧
      checkAgainst c1Src (withD1 fun d => { d with severity := "minime" }) = some false ∧
      checkAgainst c1Src (withD1 fun d => { d with tags := some ["autre"] }) = some false ∧
      checkAgainst c1Src (withD1 fun d => { d with tags := none }) = some false ∧
      checkAgainst c1Src (withD1 fun d => { d with title := "Autre titre" }) = some false ∧
      checkAgainst c1Src (withD1 fun d => { d with message := "Autre message" }) = some false ∧
      checkAgainst c1Src (withD1 fun d => { d with disruption_id := some ⟨9999⟩ }) = some false ∧
      checkAgainst c1Src (withD1 fun d => { d with disruption_id := none }) = some false ∧
      checkAgainst c1Src (withD2 fun d => { d with id := ⟨9999⟩ }) = some false ∧
      checkAgainst c1Src (withD2 fun d =>
        { d with application_periods := [{ apD2 with begin := "20240210T083001" }] }) = some false ∧
      checkAgainst c1Src (withD2 fun d =>
        { d with application_periods := [{ apD2 with «end» := "20240210T173001" }] }) = some false ∧
      checkAgainst c1Src (withD2 fun d => { d with last_update := "20240205T121501" }) = some false ∧
      checkAgainst c1Src (withD2 fun d => { d with cause := "grave" }) = some false ∧
      checkAgainst c1Src (withD2 fun d => { d with severity := "minime" }) = some false ∧
      checkAgainst c1Src (withD2 fun d => { d with tags := some ["autre"] }) = some false ∧
      checkAgainst c1Src (withD2 fun d => { d with title := "Autre titre" }) = some false ∧
      checkAgainst c1Src (withD2 fun d => { d with message := "Autre message" }) = some false ∧
      checkAgainst c1Src (withD2 fun d => { d with disruption_id := some ⟨9999⟩ }) = some false ∧
      checkAgainst c1Src (withD1 fun d => { d with short_message := some "Autre" }) = some true ∧
      checkAgainst c1Src (withD1 fun d => { d with short_message := none }) = some true ∧
      checkAgainst c1Src (withD2 fun d => { d with short_message := some "Autre" }) = some true := by
  decide

end RustInterning
